import Mathlib

/-!
Verification of the x509util certificate template engine (certificate.go,
name.go): a shallow embedding of the scalar decoders, the Subject name
projector and the Subject-Alternative-Name encoder, together with theorems
settling the specification claims about them.

Machine integers are modelled as `Nat`/`Int`; byte strings are `List Nat`
(each element < 256); Go strings are Lean `String`.
-/

/-! ## Character and digit helpers -/

/-- Numeric value of a digit character in base `b` (hexadecimal letters in
either case), or `none` if the character is not a digit of that base.
Mirrors the digit recognition of Go's `math/big` scanner. -/
def digitVal (b : Nat) (c : Char) : Option Nat :=
  let v : Option Nat :=
    if '0' ≤ c ∧ c ≤ '9' then some (c.toNat - 48)
    else if 'a' ≤ c ∧ c ≤ 'z' then some (c.toNat - 87)
    else if 'A' ≤ c ∧ c ≤ 'Z' then some (c.toNat - 55)
    else none
  match v with
  | some d => if d < b then some d else none
  | none => none

/-- Base-`b` value of a digit list, invalid characters contributing 0 (used
only under hypotheses making every character a valid digit). -/
def radixVal (b : Nat) (ds : List Char) : Nat :=
  ds.foldl (fun a c => a * b + ((digitVal b c).getD 0)) 0

/-! ## SerialNumber decoding (certificate.go lines 666-688)

The string path of `SerialNumber.UnmarshalJSON` is
`new(big.Int).SetString(sn, 0)`: in base-0 mode Go selects base 2 for a
`0b`/`0B` leading marker, base 8 for `0o`/`0O` or a bare leading `0`,
base 16 for `0x`/`0X`, and base 10 otherwise; an underscore may appear
between the base marker and a digit or between successive digits. -/

/-- One pass over the digit characters of a `math/big` base-0 literal.
`prevOK` records whether an underscore is currently permitted (true right
after a base marker or a digit); `seen` records whether at least one digit
has been read. Returns the accumulated magnitude, or `none` on any
violation of Go's digit/underscore rules. -/
def scanDigits (b : Nat) : List Char → Bool → Bool → Nat → Option Nat
  | [], prevOK, seen, acc => if seen && prevOK then some acc else none
  | c :: cs, prevOK, seen, acc =>
    if c = '_' then
      if prevOK then scanDigits b cs false seen acc else none
    else
      match digitVal b c with
      | some d => scanDigits b cs true true (acc * b + d)
      | none => none

/-- Magnitude part of Go `big.Int.SetString` in base-0 mode, after the sign
has been removed: dispatch on the base marker, then scan the digits. A bare
leading `0` followed by further characters selects base 8. -/
def bigIntMag (cs : List Char) : Option Nat :=
  match cs with
  | [] => scanDigits 10 [] false false 0
  | c :: rest =>
    if c = '0' then
      match rest with
      | [] => some 0
      | c2 :: rest2 =>
        if c2 = 'b' ∨ c2 = 'B' then scanDigits 2 rest2 true false 0
        else if c2 = 'o' ∨ c2 = 'O' then scanDigits 8 rest2 true false 0
        else if c2 = 'x' ∨ c2 = 'X' then scanDigits 16 rest2 true false 0
        else scanDigits 8 rest true false 0
    else scanDigits 10 (c :: rest) false false 0

/-- Model of Go `new(big.Int).SetString(s, 0)`: optional sign, then the
base-0 magnitude. `none` models the `ok == false` result. -/
def bigIntScan0 (cs : List Char) : Option Int :=
  match cs with
  | [] => (bigIntMag []).map Int.ofNat
  | c :: rest =>
    if c = '-' then (bigIntMag rest).map fun n => -(Int.ofNat n)
    else if c = '+' then (bigIntMag rest).map Int.ofNat
    else (bigIntMag (c :: rest)).map Int.ofNat

/-- String path of `SerialNumber.UnmarshalJSON` (certificate.go line 669):
the JSON string content is handed to `big.Int.SetString` with base 0. -/
def serialNumberFromString (s : String) : Option Int :=
  bigIntScan0 s.data

/-- Modelled from the spec: `maybeString` is defined outside the provided
source files; per the spec a JSON string input selects the string path of
SerialNumber decoding. A JSON string literal is modelled as a
quote-delimited run of characters without embedded quotes or backslashes
(escape sequences are not needed by any claim). -/
def maybeString (data : String) : Option String :=
  match data.data with
  | '"' :: rest =>
    if rest ≠ [] ∧ rest.getLast? = some '"' ∧
        (rest.dropLast.all fun c => c != '"' && c != '\\')
    then some (String.mk rest.dropLast) else none
  | _ => none

/-- Decimal value of a digit list (all characters assumed decimal). -/
def decVal (ds : List Char) : Nat :=
  ds.foldl (fun a c => 10 * a + (c.toNat - 48)) 0

/-- Digit part of a JSON integer literal: decimal digits without a leading
zero (except the literal `0` itself). -/
def jsonIntCore : List Char → Option Nat
  | [] => none
  | ['0'] => some 0
  | c :: cs =>
    if c = '0' then none
    else if (c :: cs).all Char.isDigit then some (decVal (c :: cs)) else none

/-- Model of the number path of `SerialNumber.UnmarshalJSON`: Go
`json.Unmarshal(data, &i)` into an `int64` accepts an optional minus sign
followed by a JSON integer literal (no leading zeros) within the int64
range. -/
def jsonIntScan : List Char → Option Int
  | [] => none
  | c :: cs =>
    if c = '-' then (jsonIntCore cs).bind fun n =>
      if Int.ofNat n ≤ 2 ^ 63 then some (-(Int.ofNat n)) else none
    else (jsonIntCore (c :: cs)).bind fun n =>
      if n < 2 ^ 63 then some (Int.ofNat n) else none

/-- Number path of `SerialNumber.UnmarshalJSON` applied to the raw data. -/
def jsonInt64 (data : String) : Option Int :=
  jsonIntScan data.data

/-- `SerialNumber.UnmarshalJSON` (certificate.go lines 666-688): a JSON
string is parsed by `big.Int.SetString` in base-0 mode, otherwise the data
is decoded as a 64-bit integer. `none` models the error return. -/
def serialNumberUnmarshalJSON (data : String) : Option Int :=
  match maybeString data with
  | some sn => bigIntScan0 sn.data
  | none => jsonInt64 data

/-- Spec-side reference definition, following the claim's words only: a
string parsed as a plain base-10 arbitrary-precision integer (optional
sign, decimal digits, nothing else). Used to compare the claimed base-10
fallback with the implementation's base-0 behaviour. -/
def base10Value (s : String) : Option Int :=
  let dec : List Char → Option Nat := fun cs =>
    if cs ≠ [] ∧ cs.all Char.isDigit then some (decVal cs) else none
  match s.data with
  | '-' :: cs => (dec cs).map fun n => -(Int.ofNat n)
  | cs => (dec cs).map Int.ofNat

/-! ## Lemmas about the base-0 scanner -/

lemma digitVal_underscore (b : Nat) : digitVal b '_' = none := rfl

/-- On a non-empty run of valid base-`b` digits the scanner succeeds and
folds up the base-`b` value, whatever the underscore/seen state. -/
lemma scanDigits_digits (b : Nat) :
    ∀ cs : List Char, cs ≠ [] → (∀ c ∈ cs, (digitVal b c).isSome) →
    ∀ (p seen : Bool) (acc : Nat),
      scanDigits b cs p seen acc =
        some (cs.foldl (fun a c => a * b + ((digitVal b c).getD 0)) acc) := by
  intro cs
  induction cs with
  | nil => intro h; exact absurd rfl h
  | cons c cs ih =>
    intro _ hall p seen acc
    have hc : (digitVal b c).isSome := hall c (List.mem_cons_self c cs)
    obtain ⟨d, hd⟩ := Option.isSome_iff_exists.mp hc
    have hne : c ≠ '_' := by
      intro h; rw [h, digitVal_underscore] at hd; cases hd
    simp only [scanDigits, if_neg hne, hd, List.foldl_cons, hd, Option.getD_some]
    cases cs with
    | nil => simp [scanDigits]
    | cons c2 cs2 =>
      rw [ih (by simp) (fun x hx => hall x (List.mem_cons_of_mem c hx))]

/-- A character that is neither a valid base-`b` digit nor an underscore
makes the scanner fail wherever it occurs. -/
lemma scanDigits_badChar (b : Nat) :
    ∀ cs : List Char, ∀ c0 ∈ cs, digitVal b c0 = none → c0 ≠ '_' →
    ∀ (p seen : Bool) (acc : Nat), scanDigits b cs p seen acc = none := by
  intro cs
  induction cs with
  | nil => intro c0 h; cases h
  | cons c cs ih =>
    intro c0 hmem hbad hund p seen acc
    rcases List.mem_cons.mp hmem with h | h
    · subst h
      simp only [scanDigits, if_neg hund, hbad]
    · by_cases hc : c = '_'
      · subst hc
        by_cases hp : p <;> simp [scanDigits, hp, ih c0 h hbad hund]
      · cases hdv : digitVal b c with
        | none => simp [scanDigits, if_neg hc, hdv]
        | some d => simp [scanDigits, if_neg hc, hdv, ih c0 h hbad hund]

/-! ## Claim C2 -/

/-- C2 (counterexample): the claim says a serial-number string without a
`0b`/`0o`/`0x` marker is parsed as a base-10 integer, but the decoder hands
the string to `big.Int.SetString` with base 0, for which a bare leading `0`
selects base 8: the JSON string `"010"` decodes to 8, not to the base-10
value 10. -/
theorem serialNumber_octal_counterexample :
    serialNumberUnmarshalJSON "\"010\"" = some 8 ∧
    base10Value "010" = some 10 ∧ (8 : Int) ≠ 10 := by
  refine ⟨by decide, by decide, by decide⟩

/-- C2 (amended): string serial numbers follow Go base-0 integer syntax:
markers `0b`/`0B`, `0o`/`0O`, `0x`/`0X` select bases 2, 8 and 16; a bare
leading `0` followed by octal digits also selects base 8; a string whose
first character is a nonzero decimal digit is parsed in base 10; and a
character invalid in the selected base makes the decode fail. -/
theorem serialNumber_base_dispatch :
    (∀ t : List Char, t ≠ [] → (∀ c ∈ t, (digitVal 2 c).isSome) →
      serialNumberFromString (String.mk ('0' :: 'b' :: t)) = some (radixVal 2 t) ∧
      serialNumberFromString (String.mk ('0' :: 'B' :: t)) = some (radixVal 2 t)) ∧
    (∀ t : List Char, t ≠ [] → (∀ c ∈ t, (digitVal 8 c).isSome) →
      serialNumberFromString (String.mk ('0' :: 'o' :: t)) = some (radixVal 8 t) ∧
      serialNumberFromString (String.mk ('0' :: 'O' :: t)) = some (radixVal 8 t) ∧
      serialNumberFromString (String.mk ('0' :: t)) = some (radixVal 8 t)) ∧
    (∀ t : List Char, t ≠ [] → (∀ c ∈ t, (digitVal 16 c).isSome) →
      serialNumberFromString (String.mk ('0' :: 'x' :: t)) = some (radixVal 16 t) ∧
      serialNumberFromString (String.mk ('0' :: 'X' :: t)) = some (radixVal 16 t)) ∧
    (∀ (c : Char) (t : List Char), c ≠ '0' → (∀ d ∈ c :: t, (digitVal 10 d).isSome) →
      serialNumberFromString (String.mk (c :: t)) = some (radixVal 10 (c :: t))) ∧
    (∀ t : List Char, ∀ c0 ∈ t, digitVal 16 c0 = none → c0 ≠ '_' →
      serialNumberFromString (String.mk ('0' :: 'x' :: t)) = none) := by
  refine ⟨?_, ?_, ?_, ?_, ?_⟩
  · intro t ht hall
    have h := scanDigits_digits 2 t ht hall true false 0
    constructor <;>
      simp [serialNumberFromString, bigIntScan0, bigIntMag, h, radixVal]
  · intro t ht hall
    have h := scanDigits_digits 8 t ht hall true false 0
    refine ⟨by simp [serialNumberFromString, bigIntScan0, bigIntMag, h, radixVal],
      by simp [serialNumberFromString, bigIntScan0, bigIntMag, h, radixVal], ?_⟩
    cases t with
    | nil => exact absurd rfl ht
    | cons c2 rest2 =>
      have hc2 : (digitVal 8 c2).isSome := hall c2 (List.mem_cons_self c2 rest2)
      have hb : c2 ≠ 'b' := by intro h; rw [h] at hc2; cases hc2
      have hB : c2 ≠ 'B' := by intro h; rw [h] at hc2; cases hc2
      have ho : c2 ≠ 'o' := by intro h; rw [h] at hc2; cases hc2
      have hO : c2 ≠ 'O' := by intro h; rw [h] at hc2; cases hc2
      have hx : c2 ≠ 'x' := by intro h; rw [h] at hc2; cases hc2
      have hX : c2 ≠ 'X' := by intro h; rw [h] at hc2; cases hc2
      simp [serialNumberFromString, bigIntScan0, bigIntMag, hb, hB, ho, hO, hx, hX, h, radixVal]
  · intro t ht hall
    have h := scanDigits_digits 16 t ht hall true false 0
    constructor <;>
      simp [serialNumberFromString, bigIntScan0, bigIntMag, h, radixVal]
  · intro c t hc0 hall
    have hc : (digitVal 10 c).isSome := hall c (List.mem_cons_self c t)
    have hminus : c ≠ '-' := by intro h; rw [h] at hc; cases hc
    have hplus : c ≠ '+' := by intro h; rw [h] at hc; cases hc
    have h := scanDigits_digits 10 (c :: t) (by simp) hall false false 0
    simp [serialNumberFromString, bigIntScan0, bigIntMag, hminus, hplus, hc0, h, radixVal]
  · intro t c0 hmem hbad hund
    have h := scanDigits_badChar 16 t c0 hmem hbad hund true false 0
    simp [serialNumberFromString, bigIntScan0, bigIntMag, h]

/-- Witness for C2 (amended), instantiating every part at concrete inputs:
`0b101` is 5, `0o17` is 15, `0x10` is 16, `017` is 15, `17` is 17 and
`0xz` fails. -/
theorem serialNumber_base_dispatch_witness :
    serialNumberFromString (String.mk ['0', 'b', '1', '0', '1']) = some 5 ∧
    serialNumberFromString (String.mk ['0', 'o', '1', '7']) = some 15 ∧
    serialNumberFromString (String.mk ['0', 'x', '1', '0']) = some 16 ∧
    serialNumberFromString (String.mk ['0', '1', '7']) = some 15 ∧
    serialNumberFromString (String.mk ['1', '7']) = some 17 ∧
    serialNumberFromString (String.mk ['0', 'x', 'z']) = none := by
  have h := serialNumber_base_dispatch
  refine ⟨?_, ?_, ?_, ?_, ?_, ?_⟩
  · rw [(h.1 ['1', '0', '1'] (by decide) (by decide)).1]; decide
  · rw [(h.2.1 ['1', '7'] (by decide) (by decide)).1]; decide
  · rw [(h.2.2.1 ['1', '0'] (by decide) (by decide)).1]; decide
  · rw [(h.2.1 ['1', '7'] (by decide) (by decide)).2.2]; decide
  · rw [h.2.2.2.1 '1' ['7'] (by decide) (by decide)]; decide
  · exact h.2.2.2.2 ['z'] 'z' (by decide) (by decide) (by decide)

/-! ## Claim C9 -/

/-- C9 (counterexample): the decoder imposes no sign restriction, so the
JSON number `-10` decodes successfully to the negative serial number -10. -/
theorem serialNumber_negative_counterexample :
    serialNumberUnmarshalJSON "-10" = some (-10) ∧ (-10 : Int) < 0 := by
  refine ⟨by decide, by decide⟩

lemma maybeString_mem {data sn : String} (h : maybeString data = some sn) :
    ∀ c ∈ sn.data, c ∈ data.data := by
  intro c hc
  unfold maybeString at h
  split at h
  case h_2 => cases h
  case h_1 x rest heq =>
    split at h
    case isFalse => cases h
    case isTrue hcond =>
      have hsn : sn = String.mk rest.dropLast := by
        cases h; rfl
      rw [heq]
      have hmem : c ∈ rest.dropLast := by rw [hsn] at hc; exact hc
      exact List.mem_cons_of_mem _ ((List.dropLast_sublist rest).mem hmem)

lemma bigIntScan0_nonneg {cs : List Char} (hm : '-' ∉ cs) :
    ∀ v : Int, bigIntScan0 cs = some v → 0 ≤ v := by
  intro v hv
  cases cs with
  | nil =>
    simp only [bigIntScan0] at hv
    obtain ⟨n, _, rfl⟩ := Option.map_eq_some'.mp hv
    exact Int.natCast_nonneg n
  | cons c rest =>
    have hc : c ≠ '-' := fun h => hm (h ▸ List.mem_cons_self c rest)
    simp only [bigIntScan0, if_neg hc] at hv
    by_cases hp : c = '+'
    · rw [if_pos hp] at hv
      obtain ⟨n, _, rfl⟩ := Option.map_eq_some'.mp hv
      exact Int.natCast_nonneg n
    · rw [if_neg hp] at hv
      obtain ⟨n, _, rfl⟩ := Option.map_eq_some'.mp hv
      exact Int.natCast_nonneg n

/-- C9 (amended): successful SerialNumber decodes of inputs that carry no
minus sign are non-negative; a leading minus sign (in the JSON string or
the JSON number form) is accepted and produces a negative serial number,
so the decoder itself enforces no non-negativity invariant. -/
theorem serialNumber_unsigned_nonneg :
    ∀ (data : String) (v : Int), serialNumberUnmarshalJSON data = some v →
      '-' ∉ data.data → 0 ≤ v := by
  intro data v hv hminus
  cases hm : maybeString data with
  | some sn =>
    simp only [serialNumberUnmarshalJSON, hm] at hv
    have hsub : '-' ∉ sn.data := fun h => hminus (maybeString_mem hm '-' h)
    exact bigIntScan0_nonneg hsub v hv
  | none =>
    simp only [serialNumberUnmarshalJSON, hm, jsonInt64] at hv
    cases hd : data.data with
    | nil => rw [hd] at hv; cases hv
    | cons c cs =>
      rw [hd] at hv
      have hc : c ≠ '-' := fun h => hminus (hd ▸ h ▸ List.mem_cons_self c cs)
      simp only [jsonIntScan, if_neg hc] at hv
      obtain ⟨n, _, hn⟩ := Option.bind_eq_some.mp hv
      split at hn
      · cases hn; exact Int.natCast_nonneg n
      · cases hn

/-- Witness for C9 (amended): the unsigned input `10` decodes and the
theorem yields non-negativity of its value. -/
theorem serialNumber_unsigned_nonneg_witness :
    serialNumberUnmarshalJSON "10" = some 10 ∧ (0 : Int) ≤ 10 :=
  ⟨by decide, serialNumber_unsigned_nonneg "10" 10 (by decide) (by decide)⟩

/-! ## BasicConstraints (certificate.go lines 581-611) -/

/-- BasicConstraints is the JSON representation of the X509 basic
constraints extension: a CA flag and a maximum path length. -/
structure BasicConstraints where
  isCA : Bool
  maxPathLen : Int
deriving DecidableEq, Repr

/-- Fields of the x509.Certificate touched by `BasicConstraints.Set`. -/
structure BasicConstraintsFields where
  basicConstraintsValid : Bool
  isCA : Bool
  maxPathLen : Int
  maxPathLenZero : Bool
deriving DecidableEq, Repr

/-- `BasicConstraints.Set` (certificate.go lines 592-611): mark the basic
constraints valid, copy the CA flag, and normalise the path length exactly
as the source's nested switch does. -/
def BasicConstraints.Set (b : BasicConstraints) (c : BasicConstraintsFields) :
    BasicConstraintsFields :=
  let c1 := { c with basicConstraintsValid := true, isCA := b.isCA }
  if c1.isCA then
    if b.maxPathLen = 0 then
      { c1 with maxPathLen := 0, maxPathLenZero := true }
    else if b.maxPathLen < 0 then
      { c1 with maxPathLen := -1, maxPathLenZero := false }
    else
      { c1 with maxPathLen := b.maxPathLen, maxPathLenZero := false }
  else
    { c1 with maxPathLen := 0, maxPathLenZero := false }

/-- C4: applying BasicConstraints forces effective maxPathLen 0 with the
explicit-zero flag cleared whenever isCA is false; when isCA is true, an
input of 0 yields 0 with the flag set, a negative input yields -1 with the
flag cleared, and a positive input is used as-is with the flag cleared. -/
theorem basicConstraints_policy (b : BasicConstraints) (c : BasicConstraintsFields) :
    (b.isCA = false →
      (b.Set c).maxPathLen = 0 ∧ (b.Set c).maxPathLenZero = false) ∧
    (b.isCA = true →
      (b.maxPathLen = 0 →
        (b.Set c).maxPathLen = 0 ∧ (b.Set c).maxPathLenZero = true) ∧
      (b.maxPathLen < 0 →
        (b.Set c).maxPathLen = -1 ∧ (b.Set c).maxPathLenZero = false) ∧
      (0 < b.maxPathLen →
        (b.Set c).maxPathLen = b.maxPathLen ∧ (b.Set c).maxPathLenZero = false)) := by
  unfold BasicConstraints.Set
  rcases b with ⟨ca, mpl⟩
  cases ca <;> simp
  constructor
  · intro h; simp [h]
  constructor
  · intro h
    have h0 : ¬ mpl = 0 := by omega
    simp [h0, h]
  · intro h
    have h0 : ¬ mpl = 0 := by omega
    have h1 : ¬ mpl < 0 := by omega
    simp [h0, h1]

/-- Witness for C4 at the spec's three worked examples. -/
theorem basicConstraints_policy_witness :
    (BasicConstraints.Set ⟨true, 0⟩ ⟨false, false, 7, false⟩).maxPathLen = 0 ∧
    (BasicConstraints.Set ⟨true, 0⟩ ⟨false, false, 7, false⟩).maxPathLenZero = true ∧
    (BasicConstraints.Set ⟨true, -1⟩ ⟨false, false, 7, false⟩).maxPathLen = -1 ∧
    (BasicConstraints.Set ⟨true, -1⟩ ⟨false, false, 7, false⟩).maxPathLenZero = false ∧
    (BasicConstraints.Set ⟨false, 5⟩ ⟨false, false, 7, false⟩).maxPathLen = 0 ∧
    (BasicConstraints.Set ⟨false, 5⟩ ⟨false, false, 7, false⟩).maxPathLenZero = false := by
  have h1 := (basicConstraints_policy ⟨true, 0⟩ ⟨false, false, 7, false⟩).2 rfl
  have h2 := (basicConstraints_policy ⟨true, -1⟩ ⟨false, false, 7, false⟩).2 rfl
  have h3 := (basicConstraints_policy ⟨false, 5⟩ ⟨false, false, 7, false⟩).1 rfl
  exact ⟨(h1.1 rfl).1, (h1.1 rfl).2, (h2.2.1 (by decide)).1, (h2.2.1 (by decide)).2,
    h3.1, h3.2⟩

/-! ## Subject projection (name.go)

The Go `Subject.Set` clears the certificate subject and then appends one
`pkix.AttributeTypeAndValue` per value to `ExtraNames`, every one carrying
an `asn1.RawValue` with tag `asn1.TagIA5String`. We model the resulting
`ExtraNames` list directly. -/

def oidUID : List Nat := [0, 9, 2342, 19200300, 100, 1, 1]

def oidDC : List Nat := [0, 9, 2342, 19200300, 100, 1, 25]

def oidCommonName : List Nat := [2, 5, 4, 3]

def oidSurname : List Nat := [2, 5, 4, 4]

def oidSerialNumber : List Nat := [2, 5, 4, 5]

def oidCountry : List Nat := [2, 5, 4, 6]

def oidLocality : List Nat := [2, 5, 4, 7]

def oidProvince : List Nat := [2, 5, 4, 8]

def oidStreetAddress : List Nat := [2, 5, 4, 9]

def oidOrganization : List Nat := [2, 5, 4, 10]

def oidOrganizationalUnit : List Nat := [2, 5, 4, 11]

def oidTitle : List Nat := [2, 5, 4, 12]

def oidPostalCode : List Nat := [2, 5, 4, 17]

def oidGivenName : List Nat := [2, 5, 4, 42]

/-- Value of Go `asn1.TagIA5String`. -/
def tagIA5String : Nat := 22

/-- One entry of `pkix.Name.ExtraNames`: an attribute OID together with the
ASN.1 string tag and text payload of its `asn1.RawValue`. -/
structure AttributeTypeAndValue where
  oid : List Nat
  tag : Nat
  value : String
deriving DecidableEq, Repr

/-- Attribute entry carrying an IA5String raw value, as built in every
branch of `Subject.Set` (name.go lines 109-247). -/
def ia5Attr (oid : List Nat) (v : String) : AttributeTypeAndValue :=
  ⟨oid, tagIA5String, v⟩

/-- The Name structure of name.go restricted to the subject fields. -/
structure Subject where
  country : List String
  organization : List String
  organizationalUnit : List String
  domainController : List String
  locality : List String
  province : List String
  streetAddress : List String
  postalCode : List String
  serialNumber : String
  commonName : String
  surname : String
  givenName : String
  title : String
  uid : String
deriving DecidableEq, Repr

/-- `Subject.Set` (name.go lines 94-249): start from an empty subject and
append one IA5-tagged entry per value, loop by loop in source order; the
scalar attributes are appended only when non-empty. The result models
`c.Subject.ExtraNames`. -/
def Subject.Set (s : Subject) : List AttributeTypeAndValue :=
  [] ++ s.country.map (ia5Attr oidCountry)
     ++ s.locality.map (ia5Attr oidLocality)
     ++ s.province.map (ia5Attr oidProvince)
     ++ s.streetAddress.map (ia5Attr oidStreetAddress)
     ++ s.postalCode.map (ia5Attr oidPostalCode)
     ++ s.organization.map (ia5Attr oidOrganization)
     ++ s.domainController.map (ia5Attr oidDC)
     ++ s.organizationalUnit.map (ia5Attr oidOrganizationalUnit)
     ++ (if s.title ≠ "" then [ia5Attr oidTitle s.title] else [])
     ++ (if s.givenName ≠ "" then [ia5Attr oidGivenName s.givenName] else [])
     ++ (if s.surname ≠ "" then [ia5Attr oidSurname s.surname] else [])
     ++ (if s.commonName ≠ "" then [ia5Attr oidCommonName s.commonName] else [])
     ++ (if s.serialNumber ≠ "" then [ia5Attr oidSerialNumber s.serialNumber] else [])
     ++ (if s.uid ≠ "" then [ia5Attr oidUID s.uid] else [])

lemma attrTag_map {o : List Nat} {vs : List String} {a : AttributeTypeAndValue}
    (h : a ∈ vs.map (ia5Attr o)) : a.tag = tagIA5String := by
  obtain ⟨x, _, rfl⟩ := List.mem_map.mp h
  rfl

lemma attrTag_opt {c : Prop} [Decidable c] {o : List Nat} {v : String}
    {a : AttributeTypeAndValue}
    (h : a ∈ if c then [ia5Attr o v] else []) : a.tag = tagIA5String := by
  split at h
  · rw [List.mem_singleton.mp h]; rfl
  · cases h

/-- C7: Subject projection emits one entry per present value, in the fixed
attribute order country, locality, province, streetAddress, postalCode,
organization, domainController, organizationalUnit, title, givenName,
surname, commonName, serialNumber, userID, each multi-valued attribute
contributing one entry per value in input order, and every emitted entry
carries the IA5String tag whatever the attribute. -/
theorem subject_projection (s : Subject) :
    Subject.Set s =
      s.country.map (ia5Attr oidCountry) ++
      (s.locality.map (ia5Attr oidLocality) ++
      (s.province.map (ia5Attr oidProvince) ++
      (s.streetAddress.map (ia5Attr oidStreetAddress) ++
      (s.postalCode.map (ia5Attr oidPostalCode) ++
      (s.organization.map (ia5Attr oidOrganization) ++
      (s.domainController.map (ia5Attr oidDC) ++
      (s.organizationalUnit.map (ia5Attr oidOrganizationalUnit) ++
      ((if s.title ≠ "" then [ia5Attr oidTitle s.title] else []) ++
      ((if s.givenName ≠ "" then [ia5Attr oidGivenName s.givenName] else []) ++
      ((if s.surname ≠ "" then [ia5Attr oidSurname s.surname] else []) ++
      ((if s.commonName ≠ "" then [ia5Attr oidCommonName s.commonName] else []) ++
      ((if s.serialNumber ≠ "" then [ia5Attr oidSerialNumber s.serialNumber] else []) ++
      (if s.uid ≠ "" then [ia5Attr oidUID s.uid] else []))))))))))))) ∧
    ∀ a ∈ Subject.Set s, a.tag = tagIA5String := by
  constructor
  · simp [Subject.Set, List.append_assoc]
  · intro a ha
    simp only [Subject.Set, List.nil_append, List.mem_append] at ha
    rcases ha with ((((((((((((h | h) | h) | h) | h) | h) | h) | h) | h) | h) | h) | h) | h) | h <;>
      first
        | exact attrTag_map h
        | exact attrTag_opt h

/-- Witness for C7 at a concrete subject with a two-valued country, one
organization, a title and a common name. -/
theorem subject_projection_witness :
    Subject.Set ⟨["US", "DE"], ["Acme"], [], [], [], [], [], [], "", "example.com",
        "", "", "CTO", ""⟩ =
      [ia5Attr oidCountry "US", ia5Attr oidCountry "DE", ia5Attr oidOrganization "Acme",
        ia5Attr oidTitle "CTO", ia5Attr oidCommonName "example.com"] ∧
    (ia5Attr oidCountry "US").tag = tagIA5String := by
  refine ⟨?_, (subject_projection ⟨["US", "DE"], ["Acme"], [], [], [], [], [], [], "",
    "example.com", "", "", "CTO", ""⟩).2 (ia5Attr oidCountry "US") (by decide)⟩
  decide
/-! ## ObjectIdentifier parsing and formatting (certificate.go lines 285-309)

`ObjectIdentifier.MarshalJSON` renders the arcs via
`asn1.ObjectIdentifier.String()`, the dot-joined decimal form;
`ObjectIdentifier.UnmarshalJSON` parses through `parseObjectIdentifier`. -/

/-- Decimal digit character of a value below 10 (values of 9 and above all
render as the digit 9; every use is guarded by a bound). -/
def digitChar : Nat → Char
  | 0 => '0' | 1 => '1' | 2 => '2' | 3 => '3' | 4 => '4'
  | 5 => '5' | 6 => '6' | 7 => '7' | 8 => '8' | _ => '9'

/-- Fuel-indexed big-endian decimal digits of a natural number. -/
def natDigitsF : Nat → Nat → List Char
  | 0, _ => []
  | fuel + 1, n =>
    if n < 10 then [digitChar n]
    else natDigitsF fuel (n / 10) ++ [digitChar (n % 10)]

/-- Big-endian decimal digit characters of a natural number, as produced by
Go's strconv integer formatting (used by `asn1.ObjectIdentifier.String`). -/
def natDigits (n : Nat) : List Char := natDigitsF (n + 1) n

/-- Join character components with a dot, as `strings.Join(parts, ".")`. -/
def dotJoin : List (List Char) → List Char
  | [] => []
  | [x] => x
  | x :: y :: rest => x ++ '.' :: dotJoin (y :: rest)

/-- Split a character list at every dot, as Go `strings.Split(s, ".")`. -/
def splitDot : List Char → List (List Char)
  | [] => [[]]
  | c :: cs =>
    if c = '.' then [] :: splitDot cs
    else
      match splitDot cs with
      | [] => [[c]]
      | p :: ps => (c :: p) :: ps

/-- One dotted component: a non-empty run of decimal digits, giving a
non-negative integer value. -/
def parseOIDComponent (cs : List Char) : Option Nat :=
  if cs ≠ [] ∧ cs.all Char.isDigit = true then some (decVal cs) else none

/-- Parse every dotted component in order; any failure fails the whole. -/
def parseOIDParts : List (List Char) → Option (List Nat)
  | [] => some []
  | p :: ps => (parseOIDComponent p).bind fun n =>
      (parseOIDParts ps).map fun ns => n :: ns

/-- Modelled from the spec: `parseObjectIdentifier` lives outside the
provided source files; per the spec an OID string is dot-separated, every
component must parse as a non-negative integer, and the sequence must be
non-empty (splitting an empty string yields one empty component, which
fails), else ParseError (modelled as `none`). -/
def parseObjectIdentifier (s : String) : Option (List Nat) :=
  parseOIDParts (splitDot s.data)

/-- Canonical text form of an ObjectIdentifier: dot-joined decimal, the
rendering of `asn1.ObjectIdentifier.String()`. -/
def oidToString (arcs : List Nat) : String :=
  String.mk (dotJoin (arcs.map natDigits))

/-- A component is canonical when it is the decimal rendering of its value:
either the single digit 0, or digits without a leading zero. -/
def canonicalDigits (cs : List Char) : Bool :=
  cs == ['0'] || (!cs.isEmpty && cs.head? != some '0' && cs.all Char.isDigit)

/-- A dotted-OID string is canonical when every component is. -/
def canonicalOIDString (s : String) : Bool :=
  (splitDot s.data).all canonicalDigits

/-! Lemmas for the OID round trip. -/

lemma digitChar_isDigit {d : Nat} (h : d < 10) : (digitChar d).isDigit = true := by
  interval_cases d <;> decide

lemma digitChar_toNat {d : Nat} (h : d < 10) : (digitChar d).toNat = 48 + d := by
  interval_cases d <;> decide

lemma digit_toNat_bounds {c : Char} (h : c.isDigit = true) :
    48 ≤ c.toNat ∧ c.toNat ≤ 57 := by
  simp [Char.isDigit] at h
  exact ⟨h.1, h.2⟩

lemma digit_digitChar {c : Char} (h : c.isDigit = true) :
    digitChar (c.toNat - 48) = c := by
  obtain ⟨h1, h2⟩ := digit_toNat_bounds h
  have hk : c.toNat - 48 < 10 := by omega
  have hch := digitChar_toNat hk
  have heq : 48 + (c.toNat - 48) = c.toNat := by omega
  rw [heq] at hch
  have hc := Char.ofNat_toNat (digitChar (c.toNat - 48))
  rw [hch] at hc
  rw [← hc, Char.ofNat_toNat]

lemma digit_ne_dot {c : Char} (h : c.isDigit = true) : c ≠ '.' := by
  intro hc
  obtain ⟨h1, _⟩ := digit_toNat_bounds h
  rw [hc] at h1
  exact absurd h1 (by decide)

lemma natDigitsF_stable (n : Nat) : ∀ f1 f2 : Nat, n < f1 → n < f2 →
    natDigitsF f1 n = natDigitsF f2 n := by
  induction n using Nat.strong_induction_on with
  | _ n ih =>
    intro f1 f2 h1 h2
    cases f1 with
    | zero => omega
    | succ a =>
      cases f2 with
      | zero => omega
      | succ b =>
        simp only [natDigitsF]
        by_cases h10 : n < 10
        · simp [h10]
        · have hdiv : n / 10 < n := Nat.div_lt_self (by omega) (by omega)
          rw [if_neg h10, if_neg h10, ih (n / 10) hdiv a b (by omega) (by omega)]

/-- Unfolding equation for `natDigits` in terms of itself. -/
lemma natDigits_eq (n : Nat) :
    natDigits n = if n < 10 then [digitChar n]
      else natDigits (n / 10) ++ [digitChar (n % 10)] := by
  unfold natDigits
  rw [natDigitsF]
  by_cases h10 : n < 10
  · simp [h10]
  · have hdiv : n / 10 < n := Nat.div_lt_self (by omega) (by omega)
    rw [if_neg h10, if_neg h10,
      natDigitsF_stable (n / 10) n (n / 10 + 1) (by omega) (by omega)]

lemma decVal_append (xs : List Char) (c : Char) :
    decVal (xs ++ [c]) = 10 * decVal xs + (c.toNat - 48) := by
  simp [decVal, List.foldl_append]

/-- The decimal rendering is non-empty, all digits, and evaluates back to
the rendered number. -/
lemma natDigits_spec (n : Nat) :
    natDigits n ≠ [] ∧ (∀ c ∈ natDigits n, c.isDigit = true) ∧
      decVal (natDigits n) = n := by
  induction n using Nat.strong_induction_on with
  | _ n ih =>
    rw [natDigits_eq]
    by_cases h : n < 10
    · simp only [if_pos h]
      refine ⟨by simp, ?_, ?_⟩
      · intro c hc
        rw [List.mem_singleton.mp hc]
        exact digitChar_isDigit h
      · simp [decVal, digitChar_toNat h]
    · have hdiv : n / 10 < n := Nat.div_lt_self (by omega) (by omega)
      have hmod : n % 10 < 10 := Nat.mod_lt _ (by omega)
      obtain ⟨hne, hdig, hval⟩ := ih (n / 10) hdiv
      rw [if_neg h]
      refine ⟨by simp, ?_, ?_⟩
      · intro c hc
        rcases List.mem_append.mp hc with h1 | h1
        · exact hdig c h1
        · rw [List.mem_singleton.mp h1]
          exact digitChar_isDigit hmod
      · rw [decVal_append, hval, digitChar_toNat hmod]
        omega

lemma parseOIDComponent_natDigits (n : Nat) :
    parseOIDComponent (natDigits n) = some n := by
  obtain ⟨hne, hdig, hval⟩ := natDigits_spec n
  rw [parseOIDComponent, if_pos ⟨hne, List.all_eq_true.mpr hdig⟩, hval]

lemma parseOIDParts_map (arcs : List Nat) :
    parseOIDParts (arcs.map natDigits) = some arcs := by
  induction arcs with
  | nil => rfl
  | cons a arcs ih =>
    simp [parseOIDParts, parseOIDComponent_natDigits, ih]

lemma splitDot_nodot (xs : List Char) (h : ∀ c ∈ xs, c ≠ '.') :
    splitDot xs = [xs] := by
  induction xs with
  | nil => rfl
  | cons c cs ih =>
    have hc : c ≠ '.' := h c (List.mem_cons_self c cs)
    rw [splitDot, if_neg hc, ih (fun x hx => h x (List.mem_cons_of_mem c hx))]

lemma splitDot_push (xs : List Char) (h : ∀ c ∈ xs, c ≠ '.') (ys : List Char) :
    splitDot (xs ++ '.' :: ys) = xs :: splitDot ys := by
  induction xs with
  | nil => simp [splitDot]
  | cons c cs ih =>
    have hc : c ≠ '.' := h c (List.mem_cons_self c cs)
    rw [List.cons_append, splitDot, if_neg hc,
      ih (fun x hx => h x (List.mem_cons_of_mem c hx))]

lemma splitDot_dotJoin : ∀ xss : List (List Char), xss ≠ [] →
    (∀ xs ∈ xss, ∀ c ∈ xs, c ≠ '.') → splitDot (dotJoin xss) = xss := by
  intro xss
  induction xss with
  | nil => intro h; exact absurd rfl h
  | cons x xss ih =>
    intro _ hall
    cases xss with
    | nil => exact splitDot_nodot x (hall x (List.mem_cons_self x []))
    | cons y rest =>
      rw [dotJoin, splitDot_push x (hall x (List.mem_cons_self x _)),
        ih (by simp) (fun xs hxs => hall xs (List.mem_cons_of_mem x hxs))]

lemma splitDot_ne_nil (cs : List Char) : splitDot cs ≠ [] := by
  cases cs with
  | nil => simp [splitDot]
  | cons c cs =>
    rw [splitDot]
    by_cases hc : c = '.'
    · simp [hc]
    · rw [if_neg hc]
      cases splitDot cs <;> simp

lemma dotJoin_splitDot : ∀ cs : List Char, dotJoin (splitDot cs) = cs := by
  intro cs
  induction cs with
  | nil => rfl
  | cons c cs ih =>
    rw [splitDot]
    by_cases hc : c = '.'
    · rw [if_pos hc]
      cases hsp : splitDot cs with
      | nil => exact absurd hsp (splitDot_ne_nil cs)
      | cons p ps =>
        rw [hsp] at ih
        rw [dotJoin, hc, ih, List.nil_append]
    · rw [if_neg hc]
      cases hsp : splitDot cs with
      | nil => exact absurd hsp (splitDot_ne_nil cs)
      | cons p ps =>
        rw [hsp] at ih
        cases ps with
        | nil => rw [dotJoin] at ih ⊢; rw [ih]
        | cons q qs =>
          rw [dotJoin] at ih ⊢
          rw [List.cons_append, ih]

lemma decVal_foldl_ge (rest : List Char) : ∀ a : Nat, 1 ≤ a →
    1 ≤ List.foldl (fun a c => 10 * a + (c.toNat - 48)) a rest := by
  induction rest with
  | nil => intro a ha; exact ha
  | cons c cs ih =>
    intro a ha
    exact ih (10 * a + (c.toNat - 48)) (by omega)

lemma decVal_pos (c : Char) (rest : List Char) (hd : c.isDigit = true)
    (h0 : c ≠ '0') : 1 ≤ decVal (c :: rest) := by
  obtain ⟨h1, h2⟩ := digit_toNat_bounds hd
  have hne : c.toNat ≠ 48 := by
    intro h
    apply h0
    rw [← Char.ofNat_toNat c, h]
  rw [decVal, List.foldl_cons]
  exact decVal_foldl_ge rest _ (by omega)

lemma natDigits_inv_aux : ∀ (cs : List Char), (∀ d ∈ cs, d.isDigit = true) →
    cs ≠ [] → cs.head? ≠ some '0' → natDigits (decVal cs) = cs := by
  intro cs
  induction cs using List.reverseRecOn with
  | nil => intro _ h; exact absurd rfl h
  | append_singleton xs c ih =>
    intro hdig _ hhead
    have hc : c.isDigit = true := hdig c (by simp)
    obtain ⟨hc1, hc2⟩ := digit_toNat_bounds hc
    cases xs with
    | nil =>
      have hdv : decVal [c] = c.toNat - 48 := by simp [decVal]
      rw [List.nil_append, hdv, natDigits_eq, if_pos (by omega), digit_digitChar hc]
    | cons x xs2 =>
      have hx : x.isDigit = true := hdig x (by simp)
      have hx0 : x ≠ '0' := by
        intro h
        exact hhead (by simp [h])
      have hvpos : 1 ≤ decVal (x :: xs2) := decVal_pos x xs2 hx hx0
      have hdv : decVal ((x :: xs2) ++ [c]) =
          10 * decVal (x :: xs2) + (c.toNat - 48) := decVal_append _ c
      rw [hdv, natDigits_eq, if_neg (by omega)]
      have hdiv : (10 * decVal (x :: xs2) + (c.toNat - 48)) / 10 =
          decVal (x :: xs2) := by omega
      have hmod : (10 * decVal (x :: xs2) + (c.toNat - 48)) % 10 =
          c.toNat - 48 := by omega
      rw [hdiv, hmod, digit_digitChar hc,
        ih (fun d hd => hdig d (List.mem_append_left _ hd)) (by simp) (by simp [hx0])]

lemma natDigits_canonical (cs : List Char) (h : canonicalDigits cs = true) :
    natDigits (decVal cs) = cs := by
  unfold canonicalDigits at h
  rcases Bool.or_eq_true _ _ |>.mp h with h | h
  · have hcs : cs = ['0'] := by simpa using h
    subst hcs
    decide
  · obtain ⟨⟨hne, hhd⟩, hall⟩ := by simpa [Bool.and_eq_true] using h
    exact natDigits_inv_aux cs hall (by simpa using hne)
      (by simpa using hhd)

lemma parseOIDParts_canonical : ∀ (ps : List (List Char)) (arcs : List Nat),
    parseOIDParts ps = some arcs → (∀ p ∈ ps, canonicalDigits p = true) →
    arcs.map natDigits = ps := by
  intro ps
  induction ps with
  | nil =>
    intro arcs hp _
    cases hp
    rfl
  | cons p ps ih =>
    intro arcs hp hcan
    rw [parseOIDParts] at hp
    obtain ⟨n, hn, hrest⟩ := Option.bind_eq_some.mp hp
    obtain ⟨ns, hns, harcs⟩ := Option.map_eq_some'.mp hrest
    have hnval : n = decVal p := by
      rw [parseOIDComponent] at hn
      split at hn
      · exact (Option.some_inj.mp hn).symm
      · cases hn
    subst harcs
    rw [List.map_cons, hnval, natDigits_canonical p (hcan p (List.mem_cons_self p ps)),
      ih ns hns (fun q hq => hcan q (List.mem_cons_of_mem p hq))]

/-! ## Claim C8 -/

/-- C8 (counterexample): the string `01` is accepted by the OID parser (its
single component parses as the non-negative integer 1), yet formatting the
parse result yields `1`, so format-after-parse is not the identity on every
parseable dotted string. -/
theorem oid_roundtrip_counterexample :
    parseObjectIdentifier "01" = some [1] ∧ oidToString [1] = "1" ∧
      ("1" : String) ≠ "01" := by
  refine ⟨by decide, by decide, by decide⟩

/-- C8 (amended): parsing the canonical text of any non-empty OID recovers
exactly its arcs, and formatting a parse result returns the input string
whenever the input's components are canonical decimals (no leading zeros);
a parseable component with a leading zero re-formats to its canonical
form instead. -/
theorem oid_parse_format_roundtrip :
    (∀ arcs : List Nat, arcs ≠ [] →
      parseObjectIdentifier (oidToString arcs) = some arcs) ∧
    (∀ (s : String) (arcs : List Nat), parseObjectIdentifier s = some arcs →
      canonicalOIDString s = true → oidToString arcs = s) := by
  constructor
  · intro arcs hne
    have hnodot : ∀ xs ∈ arcs.map natDigits, ∀ c ∈ xs, c ≠ '.' := by
      intro xs hxs c hc
      obtain ⟨n, _, rfl⟩ := List.mem_map.mp hxs
      exact digit_ne_dot ((natDigits_spec n).2.1 c hc)
    have hmapne : arcs.map natDigits ≠ [] := by
      cases arcs with
      | nil => exact absurd rfl hne
      | cons a as => simp
    unfold parseObjectIdentifier oidToString
    rw [show (String.mk (dotJoin (arcs.map natDigits))).data =
        dotJoin (arcs.map natDigits) from rfl,
      splitDot_dotJoin _ hmapne hnodot]
    exact parseOIDParts_map arcs
  · intro s arcs hp hc
    unfold parseObjectIdentifier at hp
    unfold canonicalOIDString at hc
    have hmap := parseOIDParts_canonical _ _ hp (List.all_eq_true.mp hc)
    unfold oidToString
    rw [hmap, dotJoin_splitDot]

/-- Witness for C8 (amended): the SAN OID 2.5.29.17 survives a
parse-of-format round trip, and the canonical string 1.2.840 survives a
format-of-parse round trip. -/
theorem oid_parse_format_roundtrip_witness :
    parseObjectIdentifier (oidToString [2, 5, 29, 17]) = some [2, 5, 29, 17] ∧
    oidToString [1, 2, 840] = "1.2.840" := by
  have h := oid_parse_format_roundtrip
  exact ⟨h.1 [2, 5, 29, 17] (by decide),
    h.2 "1.2.840" [1, 2, 840] (by decide) (by decide)⟩

/-! ## DER encoding primitives (Go encoding/asn1)

The SAN encoder hand-builds DER through `asn1.Marshal` and
`asn1.MarshalWithParams`. The helpers below model the octet output of those
calls for the value shapes the encoder uses. -/

/-- Number of base-256 octets of a natural number (fuel-indexed). -/
def byteLenF : Nat → Nat → Nat
  | 0, _ => 1
  | fuel + 1, n => if n < 256 then 1 else 1 + byteLenF fuel (n / 256)

/-- Number of base-256 octets of a natural number, at least one. -/
def byteLen (n : Nat) : Nat := byteLenF n n

/-- Big-endian base-256 octets of `n`, exactly `k` octets wide. -/
def beBytes (n k : Nat) : List Nat :=
  (List.range k).map fun j => n / 256 ^ (k - 1 - j) % 256

/-- DER length octets: short form below 128, long form otherwise. -/
def derLen (n : Nat) : List Nat :=
  if n < 128 then [n] else (128 + byteLen n) :: beBytes n (byteLen n)

/-- A DER element: tag octet, length octets, content octets. -/
def derTLV (tag : Nat) (content : List Nat) : List Nat :=
  tag :: derLen content.length ++ content

/-- Octet count of the minimal two's-complement encoding of an int64. -/
def intOctets (i : Int) : Nat :=
  (((List.range 8).map (· + 1)).find? fun k =>
    decide (-((2 : Int) ^ (8 * k - 1)) ≤ i ∧ i < 2 ^ (8 * k - 1))).getD 8

/-- Content octets of a DER INTEGER: minimal two's-complement big-endian,
as Go encoding/asn1 marshals an int. -/
def derIntContent (i : Int) : List Nat :=
  beBytes (i % (2 : Int) ^ (8 * intOctets i)).toNat (intOctets i)

/-- Fuel-indexed big-endian base-128 digits of a natural number. -/
def base128F : Nat → Nat → List Nat
  | 0, _ => []
  | fuel + 1, n => if n < 128 then [n] else base128F fuel (n / 128) ++ [n % 128]

/-- Base-128 octets of an OID arc with continuation bits: the high bit is
set on every octet but the last. -/
def base128 (n : Nat) : List Nat :=
  let ds := base128F (n + 1) n
  (ds.take (ds.length - 1)).map (· + 128) ++ ds.drop (ds.length - 1)

/-- Content octets of a DER OBJECT IDENTIFIER, or `none` when Go
encoding/asn1 rejects the arcs (fewer than two, first arc above 2, or a
second arc of 40 or more under a first arc below 2). -/
def derOIDContent (arcs : List Nat) : Option (List Nat) :=
  match arcs with
  | a :: b :: rest =>
    if 2 < a ∨ (a < 2 ∧ 40 ≤ b) then none
    else some (base128 (40 * a + b) ++ (rest.map base128).flatten)
  | _ => none

/-- UTF-8 octets of one character, as Go's string-to-bytes conversion. -/
def charUTF8 (c : Char) : List Nat :=
  let n := c.toNat
  if n < 128 then [n]
  else if n < 2048 then [192 + n / 64, 128 + n % 64]
  else if n < 65536 then [224 + n / 4096, 128 + n / 64 % 64, 128 + n % 64]
  else [240 + n / 262144, 128 + n / 4096 % 64, 128 + n / 64 % 64, 128 + n % 64]

/-- Octets of a Go string (UTF-8). -/
def strBytes (s : String) : List Nat := (s.data.map charUTF8).flatten

/-- Character accepted by Go asn1 PrintableString marshalling: letters,
digits, space and a small punctuation set, including Go's asterisk and
ampersand extras; the apostrophe (code 39) is also permitted. -/
def printableChar (c : Char) : Bool :=
  c.isAlphanum || c = ' ' || c.toNat = 39 || c = '(' || c = ')' || c = '+' ||
  c = ',' || c = '-' || c = '.' || c = '/' || c = ':' || c = '=' || c = '?' ||
  c = '*' || c = '&'

/-- Character accepted by Go asn1 NumericString marshalling. -/
def numericChar (c : Char) : Bool :=
  c.isDigit || c = ' '

/-- Character accepted by Go asn1 IA5String marshalling (seven-bit). -/
def ia5Char (c : Char) : Bool := c.toNat < 128

/-- Go `asn1.MarshalWithParams(v, kind)` for the four string kinds the SAN
encoder uses: check the character set of the kind and emit the element
under the matching universal tag (12 utf8, 22 ia5, 18 numeric,
19 printable); a bad character is a structural error. -/
def marshalASN1String (kind : String) (v : String) : Except String (List Nat) :=
  if kind = "utf8" then .ok (derTLV 12 (strBytes v))
  else if kind = "ia5" then
    if v.data.all ia5Char then .ok (derTLV 22 (strBytes v))
    else .error "asn1: structure error: IA5String contains invalid character"
  else if kind = "numeric" then
    if v.data.all numericChar then .ok (derTLV 18 (strBytes v))
    else .error "asn1: structure error: NumericString contains invalid character"
  else
    if v.data.all printableChar then .ok (derTLV 19 (strBytes v))
    else .error "asn1: structure error: PrintableString contains invalid character"

/-! ## net.ParseIP (Go standard library)

`createSubjectAltNameExtension` and `SubjectAlternativeName.Set` both call
`net.ParseIP`. The model follows Go's parser: the first dot or colon in the
string chooses the IPv4 or IPv6 grammar; a parsed address is always a
sixteen-octet list (dotted quads in the v4-mapped envelope). -/

/-- All-zero octets. -/
def zeros (n : Nat) : List Nat := List.replicate n 0

/-- One dotted-quad field: one to three decimal digits, no leading zero
(rejected by Go since 1.17), value at most 255. -/
def v4Field (cs : List Char) : Option Nat :=
  if cs ≠ [] ∧ cs.length ≤ 3 ∧ cs.all Char.isDigit = true ∧
      (cs.head? = some '0' → cs = ['0']) then
    if decVal cs ≤ 255 then some (decVal cs) else none
  else none

/-- Dotted-quad IPv4 parse, yielding the four raw octets. -/
def parseIPv4Quad (cs : List Char) : Option (List Nat) :=
  match splitDot cs with
  | [f1, f2, f3, f4] =>
    (v4Field f1).bind fun a => (v4Field f2).bind fun b =>
      (v4Field f3).bind fun c => (v4Field f4).bind fun d =>
        some [a, b, c, d]
  | _ => none

/-- Scan the hex digits of one IPv6 group: accumulate while the characters
are hex digits, failing (`none`) once the value reaches 2^16. Returns the
value, the digit count and the rest of the input. -/
def v6Group : List Char → Nat → Nat → Option (Nat × Nat × List Char)
  | [], acc, cnt => some (acc, cnt, [])
  | c :: cs, acc, cnt =>
    match digitVal 16 c with
    | some d =>
      if 65535 < acc * 16 + d then none
      else v6Group cs (acc * 16 + d) (cnt + 1)
    | none => some (acc, cnt, c :: cs)

/-- Close an IPv6 parse: a full sixteen octets must carry no `::` (it must
expand to at least one zero group); a shorter list needs the `::` position
to insert the missing zeros. -/
def v6Finish (bytes : List Nat) (ell : Option Nat) : Option (List Nat) :=
  if bytes.length = 16 then
    match ell with
    | none => some bytes
    | some _ => none
  else
    match ell with
    | none => none
    | some e => some (bytes.take e ++ zeros (16 - bytes.length) ++ bytes.drop e)

/-- Main IPv6 loop, following Go's parseIPv6: each iteration scans one
colon-separated group (or a trailing dotted quad), tracks the octet
position of a single permitted `::`, and stops at the end of input. -/
def v6Loop : Nat → List Char → List Nat → Option Nat → Option (List Nat)
  | 0, _, _, _ => none
  | fuel + 1, cs, bytes, ell =>
    if 16 ≤ bytes.length then none
    else
      match v6Group cs 0 0 with
      | none => none
      | some (acc, cnt, rest) =>
        if cnt = 0 then none
        else if rest.head? = some '.' then
          if 12 < bytes.length then none
          else
            match parseIPv4Quad cs with
            | none => none
            | some quad => v6Finish (bytes ++ quad) ell
        else
          match rest with
          | [] => v6Finish (bytes ++ [acc / 256, acc % 256]) ell
          | ':' :: rest2 =>
            match rest2 with
            | ':' :: rest3 =>
              match ell with
              | some _ => none
              | none =>
                if rest3 = [] then
                  v6Finish (bytes ++ [acc / 256, acc % 256])
                    (some (bytes ++ [acc / 256, acc % 256]).length)
                else
                  v6Loop fuel rest3 (bytes ++ [acc / 256, acc % 256])
                    (some (bytes ++ [acc / 256, acc % 256]).length)
            | [] => none
            | _ => v6Loop fuel rest2 (bytes ++ [acc / 256, acc % 256]) ell
          | _ => none

/-- IPv6 textual parse (no zone): an optional leading `::`, then the main
group loop. -/
def parseIPv6 (cs : List Char) : Option (List Nat) :=
  match cs with
  | ':' :: ':' :: rest =>
    if rest = [] then some (zeros 16)
    else v6Loop (rest.length + 1) rest [] (some 0)
  | ':' :: _ => none
  | _ => v6Loop (cs.length + 1) cs [] none

/-- Scan for the first dot or colon to choose the grammar, as Go
net.ParseIP does. -/
def parseIPScan : List Char → List Char → Option (List Nat)
  | [], _ => none
  | c :: cs, whole =>
    if c = '.' then (parseIPv4Quad whole).map fun q => zeros 10 ++ [255, 255] ++ q
    else if c = ':' then parseIPv6 whole
    else parseIPScan cs whole

/-- Model of Go `net.ParseIP`: sixteen octets on success, `none` on any
failure. -/
def parseIP (s : String) : Option (List Nat) := parseIPScan s.data s.data

/-- Does a sixteen-octet address lie in the v4-mapped range? -/
def isV4Mapped (bs : List Nat) : Bool :=
  bs.take 12 == [0, 0, 0, 0, 0, 0, 0, 0, 0, 0, 255, 255]

/-- Go `net.IP.To4` as used in the ip branch: keep the last four octets of
a v4-mapped address, otherwise the address unchanged. -/
def goTo4 (bs : List Nat) : List Nat :=
  if isV4Mapped bs then bs.drop 12 else bs

/-! ## The SAN encoder (certificate.go lines 690-850) -/

/-- SubjectAlternativeName is a type tag plus a value (certificate.go
lines 314-317). -/
structure SubjectAlternativeName where
  type : String
  value : String
deriving DecidableEq, Repr

/-- Split a character list at its first semicolon, `none` when it has
none: Go `strings.Contains` plus `strings.Split(v, ";")[0]` and the text
after the first semicolon. -/
def splitSemi : List Char → Option (List Char × List Char)
  | [] => none
  | c :: cs =>
    if c = ';' then some ([], cs)
    else (splitSemi cs).map fun p => (c :: p.1, p.2)

/-- Digit part of Go strconv.Atoi: non-empty decimal digit run. -/
def atoiCore (cs : List Char) : Option Nat :=
  if cs ≠ [] ∧ cs.all Char.isDigit = true then some (decVal cs) else none

/-- Go `strconv.Atoi`: optional sign, decimal digits, 64-bit range. -/
def atoi (s : String) : Option Int :=
  match s.data with
  | '-' :: cs => (atoiCore cs).bind fun n =>
      if Int.ofNat n ≤ 2 ^ 63 then some (-(Int.ofNat n)) else none
  | '+' :: cs => (atoiCore cs).bind fun n =>
      if n < 2 ^ 63 then some (Int.ofNat n) else none
  | cs => (atoiCore cs).bind fun n =>
      if n < 2 ^ 63 then some (Int.ofNat n) else none

/-- DER of the OtherName structure marshalled with params tag:0: a
context-constructed tag 0 wrapping the OID element and the tag:0-wrapped
inner value. When encoding/asn1 rejects the OID the error is discarded by
the source (`generalNameBytes, _ :=`), leaving empty FullBytes that later
marshal as the two octets 0, 0. -/
def otherNameDER (arcs : List Nat) (inner : List Nat) : List Nat :=
  match derOIDContent arcs with
  | some oidc => derTLV 160 (derTLV 6 oidc ++ derTLV 160 inner)
  | none => [0, 0]

/-- Kind dispatch of the OtherName default branch (certificate.go lines
789-816): switch on the value-type marker, build the inner DER value (int,
oid, one of four string kinds, or printable of the whole value for an
unknown marker) and wrap it as an OtherName; marshalling failures are
wrapped as "could not marshal ASN1 values". -/
def encodeOtherNameKind (san : SubjectAlternativeName) (arcs : List Nat)
    (valueType sanValue : String) : Except String (List Nat) :=
  if valueType = "int" then
    match atoi sanValue with
    | none => .error ("invalid int value for int-typed SAN OtherName " ++ san.type)
    | some i => .ok (otherNameDER arcs (derTLV 2 (derIntContent i)))
  else if valueType = "oid" then
    match parseObjectIdentifier sanValue with
    | none => .error ("invalid OID value for OID-typed SAN OtherName " ++ san.type)
    | some oidVal =>
      match derOIDContent oidVal with
      | none => .error
        "could not marshal ASN1 values: asn1: structure error: invalid object identifier"
      | some c => .ok (otherNameDER arcs (derTLV 6 c))
  else if valueType = "utf8" ∨ valueType = "ia5" ∨ valueType = "numeric" ∨
      valueType = "printable" then
    match marshalASN1String valueType sanValue with
    | .error e => .error ("could not marshal ASN1 values: " ++ e)
    | .ok bs => .ok (otherNameDER arcs bs)
  else
    match marshalASN1String "printable" san.value with
    | .error e => .error ("could not marshal ASN1 values: " ++ e)
    | .ok bs => .ok (otherNameDER arcs bs)

/-- Default branch of the SAN type switch (certificate.go lines 768-833)
after the type has parsed as an OID: the value type defaults to printable
over the whole value, and a semicolon splits off an explicit kind marker
from the payload. -/
def encodeOtherName (san : SubjectAlternativeName) (arcs : List Nat) :
    Except String (List Nat) :=
  match splitSemi san.value.data with
  | some p => encodeOtherNameKind san arcs (String.mk p.1) (String.mk p.2)
  | none => encodeOtherNameKind san arcs "printable" san.value

/-- Per-entry step of the SAN loop (certificate.go lines 736-838): the DER
octets of the GeneralName appended for the entry, `.ok none` when the
entry is silently dropped, `.error` when encoding fails. Tag octets are
context-class primitives 0x80+n for the string and address forms. -/
def encodeSANEntry (san : SubjectAlternativeName) :
    Except String (Option (List Nat)) :=
  if san.type = "email" then .ok (some (derTLV 129 (strBytes san.value)))
  else if san.type = "dns" then .ok (some (derTLV 130 (strBytes san.value)))
  else if san.type = "x400Address" ∨ san.type = "dn" ∨
      san.type = "ediPartyName" then
    .error ("unimplemented SAN type " ++ san.type)
  else if san.type = "uri" then .ok (some (derTLV 134 (strBytes san.value)))
  else if san.type = "ip" then
    match parseIP san.value with
    | some bs => .ok (some (derTLV 135 (goTo4 bs)))
    | none => .ok none
  else if san.type = "registeredID" then
    if san.value ≠ "" then
      match parseObjectIdentifier san.value with
      | some arcs =>
        match derOIDContent arcs with
        | some c => .ok (some (derTLV 136 c))
        | none => .ok (some [0, 0])
      | none => .ok none
    else .ok none
  else if san.type ≠ "" then
    match parseObjectIdentifier san.type with
    | some arcs => (encodeOtherName san arcs).map some
    | none => .error ("unsupported SAN type " ++ san.type)
  else .ok none

/-- Decidable equality for Except results, for concrete evaluation. -/
instance {e a : Type} [DecidableEq e] [DecidableEq a] : DecidableEq (Except e a) := fun x y =>
  match x, y with
  | .error u, .error v =>
    if h : u = v then isTrue (by rw [h]) else isFalse (by intro hh; cases hh; exact h rfl)
  | .ok u, .ok v =>
    if h : u = v then isTrue (by rw [h]) else isFalse (by intro hh; cases hh; exact h rfl)
  | .error _, .ok _ => isFalse (by intro hh; cases hh)
  | .ok _, .error _ => isFalse (by intro hh; cases hh)

/-- Loop of createSubjectAltNameExtension over the combined SAN list: the
DER octets of every emitted GeneralName, in order. -/
def encodeSANList : List SubjectAlternativeName → Except String (List (List Nat))
  | [] => .ok []
  | san :: rest =>
    match encodeSANEntry san with
    | .error e => .error e
    | .ok none => encodeSANList rest
    | .ok (some bs) => (encodeSANList rest).map fun l => bs :: l

/-- Certificate fields feeding the SAN encoder. The `net.IP` and `url.URL`
values the Go Certificate holds are represented by the textual rendering
the encoder reads back from them (`ip.String()`, `uri.String()`). -/
structure CertificateSANs where
  sans : List SubjectAlternativeName
  dnsNames : List String
  emailAddresses : List String
  uris : List String
  ipAddresses : List String
deriving DecidableEq, Repr

/-- Extension record: OID, criticality and DER value (certificate.go
lines 248-252). -/
structure Extension where
  id : List Nat
  critical : Bool
  value : List Nat
deriving DecidableEq, Repr

/-- OID of the subjectAltName extension (certificate.go line 233). -/
def subjectAlternativeNameOID : List Nat := [2, 5, 29, 17]

/-- Combined SAN list (certificate.go lines 701-733): the explicit entries
first, then the DNS, email, URI and IP shorthands. -/
def allSANs (c : CertificateSANs) : List SubjectAlternativeName :=
  c.sans ++ c.dnsNames.map (fun v => ⟨"dns", v⟩)
    ++ c.emailAddresses.map (fun v => ⟨"email", v⟩)
    ++ c.uris.map (fun v => ⟨"uri", v⟩)
    ++ c.ipAddresses.map (fun v => ⟨"ip", v⟩)

/-- createSubjectAltNameExtension (certificate.go lines 697-850): encode
every combined entry, wrap the emitted GeneralNames in a DER SEQUENCE and
return it as the unconditionally non-critical extension under 2.5.29.17. -/
def createSubjectAltNameExtension (c : CertificateSANs) :
    Except String Extension :=
  match encodeSANList (allSANs c) with
  | .error e => .error e
  | .ok vals => .ok ⟨subjectAlternativeNameOID, false, derTLV 48 vals.flatten⟩

/-! ## Length facts about parsed IP addresses -/

lemma parseIPv4Quad_length {cs : List Char} {q : List Nat}
    (h : parseIPv4Quad cs = some q) : q.length = 4 := by
  unfold parseIPv4Quad at h
  split at h
  · obtain ⟨a, _, h⟩ := Option.bind_eq_some.mp h
    obtain ⟨b, _, h⟩ := Option.bind_eq_some.mp h
    obtain ⟨c, _, h⟩ := Option.bind_eq_some.mp h
    obtain ⟨d, _, h⟩ := Option.bind_eq_some.mp h
    cases h
    rfl
  · cases h

lemma v6Finish_length {bytes : List Nat} {ell : Option Nat} {out : List Nat}
    (hlen : bytes.length ≤ 16) (hell : ∀ e, ell = some e → e ≤ bytes.length)
    (h : v6Finish bytes ell = some out) : out.length = 16 := by
  unfold v6Finish at h
  split at h
  · split at h
    · cases h
      assumption
    · cases h
  · split at h
    · cases h
    · rename_i hne e
      have he : e ≤ bytes.length := hell e rfl
      cases h
      simp only [List.length_append, List.length_take, List.length_drop, zeros,
        List.length_replicate]
      omega

lemma v6Loop_length : ∀ (fuel : Nat) (cs : List Char) (bytes : List Nat)
    (ell : Option Nat) (out : List Nat),
    bytes.length % 2 = 0 → bytes.length ≤ 16 →
    (∀ e, ell = some e → e ≤ bytes.length) →
    v6Loop fuel cs bytes ell = some out → out.length = 16 := by
  intro fuel
  induction fuel with
  | zero =>
    intro cs bytes ell out _ _ _ h
    cases h
  | succ fuel ih =>
    intro cs bytes ell out heven hle hell h
    unfold v6Loop at h
    split at h
    · cases h
    · rename_i hlt
      split at h
      · cases h
      · rename_i acc cnt rest _
        split at h
        · cases h
        · split at h
          · split at h
            · cases h
            · rename_i hb12
              split at h
              · cases h
              · rename_i quad hquad
                refine v6Finish_length ?_ ?_ h
                · simp only [List.length_append, List.length_cons, List.length_nil, parseIPv4Quad_length hquad]
                  omega
                · intro e hee
                  have := hell e hee
                  simp only [List.length_append, List.length_cons, List.length_nil]
                  omega
          · split at h
            · refine v6Finish_length ?_ ?_ h
              · simp only [List.length_append, List.length_cons, List.length_nil]
                omega
              · intro e hee
                have := hell e hee
                simp only [List.length_append, List.length_cons, List.length_nil]
                omega
            · rename_i rest2 _
              split at h
              · rename_i rest3 _
                split at h
                · cases h
                · split at h
                  · refine v6Finish_length ?_ ?_ h
                    · simp only [List.length_append, List.length_cons, List.length_nil]
                      omega
                    · intro e hee
                      cases hee
                      omega
                  · refine ih _ _ _ _ ?_ ?_ ?_ h
                    · simp only [List.length_append, List.length_cons, List.length_nil]
                      omega
                    · simp only [List.length_append, List.length_cons, List.length_nil]
                      omega
                    · intro e hee
                      cases hee
                      omega
              · cases h
              · refine ih _ _ _ _ ?_ ?_ ?_ h
                · simp only [List.length_append, List.length_cons, List.length_nil]
                  omega
                · simp only [List.length_append, List.length_cons, List.length_nil]
                  omega
                · intro e hee
                  have := hell e hee
                  simp only [List.length_append, List.length_cons, List.length_nil]
                  omega
            · cases h

lemma parseIPv6_length {cs : List Char} {out : List Nat}
    (h : parseIPv6 cs = some out) : out.length = 16 := by
  unfold parseIPv6 at h
  split at h
  · split at h
    · cases h
      simp [zeros]
    · exact v6Loop_length _ _ _ _ _ (by simp) (by simp) (by intro e he; cases he; simp) h
  · cases h
  · exact v6Loop_length _ _ _ _ _ (by simp) (by simp) (by intro e he; cases he) h

lemma parseIPScan_length : ∀ (rem whole : List Char) (out : List Nat),
    parseIPScan rem whole = some out → out.length = 16 := by
  intro rem
  induction rem with
  | nil =>
    intro whole out h
    cases h
  | cons c cs ih =>
    intro whole out h
    unfold parseIPScan at h
    split at h
    · obtain ⟨q, hq, rfl⟩ := Option.map_eq_some'.mp h
      simp [zeros, parseIPv4Quad_length hq]
    · split at h
      · exact parseIPv6_length h
      · exact ih whole out h

lemma parseIP_length {s : String} {bs : List Nat} (h : parseIP s = some bs) :
    bs.length = 16 :=
  parseIPScan_length s.data s.data bs h

/-! ## Claim C6 -/

/-- C6: whenever the SAN encoder succeeds, the produced extension carries
OID 2.5.29.17 and is non-critical, regardless of the entries encoded (the
encoder never reads the Subject at all). -/
theorem san_extension_oid_noncritical :
    ∀ (c : CertificateSANs) (ext : Extension),
      createSubjectAltNameExtension c = .ok ext →
      ext.id = [2, 5, 29, 17] ∧ ext.critical = false := by
  intro c ext h
  unfold createSubjectAltNameExtension at h
  split at h
  · cases h
  · cases h
    exact ⟨rfl, rfl⟩

/-- Witness for C6 at an empty certificate and at one with a DNS name. -/
theorem san_extension_oid_noncritical_witness :
    createSubjectAltNameExtension ⟨[], [], [], [], []⟩ =
      .ok ⟨[2, 5, 29, 17], false, [48, 0]⟩ ∧
    (⟨[2, 5, 29, 17], false, [48, 0]⟩ : Extension).id = [2, 5, 29, 17] ∧
    (⟨[2, 5, 29, 17], false, [48, 0]⟩ : Extension).critical = false :=
  ⟨rfl, san_extension_oid_noncritical ⟨[], [], [], [], []⟩ ⟨[2, 5, 29, 17], false, [48, 0]⟩ rfl⟩

/-! ## Claim C5 -/

lemma encodeSANEntry_ip (v : String) :
    encodeSANEntry ⟨"ip", v⟩ = match parseIP v with
      | some bs => .ok (some (derTLV 135 (goTo4 bs)))
      | none => .ok none := rfl

lemma encodeSANList_skip {e : SubjectAlternativeName}
    (he : encodeSANEntry e = .ok none) :
    ∀ xs ys, encodeSANList (xs ++ e :: ys) = encodeSANList (xs ++ ys) := by
  intro xs
  induction xs with
  | nil =>
    intro ys
    simp only [List.nil_append, encodeSANList, he]
  | cons x xs ih =>
    intro ys
    simp only [List.cons_append, encodeSANList, List.append_eq, ih]

/-- C5: for SAN entries of type ip the encoder parses the text and emits a
tag-7 (octet 0x87) GeneralName holding the four raw octets of a v4-mapped
address and the sixteen octets otherwise; an unparsable value yields no
GeneralName and no error, and dropping such an entry anywhere in the SAN
list leaves the whole extension unchanged. -/
theorem san_ip_entries :
    (∀ (v : String) (bs : List Nat), parseIP v = some bs →
      encodeSANEntry ⟨"ip", v⟩ = .ok (some (derTLV 135 (goTo4 bs))) ∧
      (isV4Mapped bs = true → (goTo4 bs).length = 4) ∧
      (isV4Mapped bs = false → (goTo4 bs).length = 16)) ∧
    (∀ v : String, parseIP v = none → encodeSANEntry ⟨"ip", v⟩ = .ok none) ∧
    (∀ (c : CertificateSANs) (pre post : List SubjectAlternativeName)
        (v : String), parseIP v = none →
      createSubjectAltNameExtension { c with sans := pre ++ ⟨"ip", v⟩ :: post } =
        createSubjectAltNameExtension { c with sans := pre ++ post }) := by
  refine ⟨?_, ?_, ?_⟩
  · intro v bs hv
    have hlen : bs.length = 16 := parseIP_length hv
    refine ⟨by rw [encodeSANEntry_ip, hv], ?_, ?_⟩
    · intro hm
      simp only [goTo4, hm, if_pos, List.length_drop, hlen]
    · intro hm
      simp [goTo4, hm, hlen]
  · intro v hv
    rw [encodeSANEntry_ip, hv]
  · intro c pre post v hv
    have he : encodeSANEntry ⟨"ip", v⟩ = .ok none := by
      rw [encodeSANEntry_ip, hv]
    unfold createSubjectAltNameExtension allSANs
    simp only [List.append_assoc, List.cons_append, List.nil_append]
    rw [encodeSANList_skip he]

/-- Witness for C5 at a dotted quad, an IPv6 address, a non-address and a
concrete drop inside a certificate. -/
theorem san_ip_entries_witness :
    encodeSANEntry ⟨"ip", "1.2.3.4"⟩ = .ok (some [135, 4, 1, 2, 3, 4]) ∧
    encodeSANEntry ⟨"ip", "2001:db8::1"⟩ =
      .ok (some [135, 16, 32, 1, 13, 184, 0, 0, 0, 0, 0, 0, 0, 0, 0, 0, 0, 1]) ∧
    encodeSANEntry ⟨"ip", "not-an-ip"⟩ = .ok none ∧
    createSubjectAltNameExtension ⟨[⟨"ip", "bad"⟩], ["a.example"], [], [], []⟩ =
      createSubjectAltNameExtension ⟨[], ["a.example"], [], [], []⟩ := by
  have h := san_ip_entries
  refine ⟨?_, ?_, ?_, ?_⟩
  · rw [(h.1 "1.2.3.4" [0, 0, 0, 0, 0, 0, 0, 0, 0, 0, 255, 255, 1, 2, 3, 4]
      (by decide)).1]
    rfl
  · rw [(h.1 "2001:db8::1" [32, 1, 13, 184, 0, 0, 0, 0, 0, 0, 0, 0, 0, 0, 0, 1]
      (by decide)).1]
    rfl
  · exact h.2.1 "not-an-ip" (by decide)
  · exact h.2.2 ⟨[], ["a.example"], [], [], []⟩ [] [] "bad" (by decide)

/-! ## SubjectAlternativeName.Set (certificate.go lines 320-345) -/

/-- Certificate fields touched by SubjectAlternativeName.Set: the appended
SAN slices. Parsed IPs are sixteen-octet lists; URLs are their text. -/
structure SetCert where
  dnsNames : List String
  emailAddresses : List String
  ipAddresses : List (List Nat)
  uris : List String
deriving DecidableEq, Repr

/-- Outcome of a Set call: the updated certificate, or the Go panic of the
default branch (a fatal abort, not an error return — the Go method has no
error result). -/
inductive SetOutcome
  | ok (c : SetCert)
  | fatal (msg : String)
deriving DecidableEq, Repr

/-- ASCII fragment of Go strings.ToLower; the type tags the switch
compares against are ASCII, so this is the relevant behaviour. -/
def asciiToLower (s : String) : String :=
  String.mk (s.data.map fun c =>
    if 'A' ≤ c ∧ c ≤ 'Z' then Char.ofNat (c.toNat + 32) else c)

/-- Simplified model of Go url.Parse from the standard library: it rejects
ASCII control characters, the only failure aspect any claim touches; the
parsed URL is represented by its text. -/
def urlParse (s : String) : Option String :=
  if s.data.all (fun c => decide (32 ≤ c.toNat ∧ c.toNat ≠ 127)) then some s
  else none

/-- Modelled from the spec: SplitSANs lives outside the provided source
files; the spec only says the auto type guesses each value's kind. We
classify a value as ip when it parses as an address, email when it carries
an at sign, uri when it carries a colon, and dns otherwise; no claim
depends on this classification. Returns (dns, ips, emails, uris) as the Go
function does. -/
def splitSANs (vs : List String) :
    List String × List (List Nat) × List String × List String :=
  ( vs.filter fun v =>
      (parseIP v).isNone && !v.data.contains '@' && !v.data.contains ':',
    vs.filterMap parseIP,
    vs.filter fun v => (parseIP v).isNone && v.data.contains '@',
    vs.filter fun v =>
      (parseIP v).isNone && !v.data.contains '@' && v.data.contains ':' )

/-- SubjectAlternativeName.Set (certificate.go lines 320-345): dispatch on
the lowercased type, appending to the matching certificate slice; the ip
and uri branches drop values their parsers reject; the default branch is
the Go panic. -/
def SubjectAlternativeName.Set (s : SubjectAlternativeName) (c : SetCert) :
    SetOutcome :=
  if asciiToLower s.type = "dns" then
    .ok { c with dnsNames := c.dnsNames ++ [s.value] }
  else if asciiToLower s.type = "email" then
    .ok { c with emailAddresses := c.emailAddresses ++ [s.value] }
  else if asciiToLower s.type = "ip" then
    match parseIP s.value with
    | some ip => .ok { c with ipAddresses := c.ipAddresses ++ [ip] }
    | none => .ok c
  else if asciiToLower s.type = "uri" then
    match urlParse s.value with
    | some u => .ok { c with uris := c.uris ++ [u] }
    | none => .ok c
  else if asciiToLower s.type = "" ∨ asciiToLower s.type = "auto" then
    .ok { c with dnsNames := c.dnsNames ++ (splitSANs [s.value]).1,
                 ipAddresses := c.ipAddresses ++ (splitSANs [s.value]).2.1,
                 emailAddresses :=
                   c.emailAddresses ++ (splitSANs [s.value]).2.2.1,
                 uris := c.uris ++ (splitSANs [s.value]).2.2.2 }
  else .fatal ("unsupported subject alternative name type " ++ s.type)

/-! ## Claim C1 -/

/-- C1 (counterexample): applying an entry of the unrecognized type foo
does not produce a recoverable error result — Set has no error result at
all and the call is the Go panic, a fatal abort of the process. -/
theorem setSAN_panic_counterexample :
    SubjectAlternativeName.Set ⟨"foo", "bar"⟩ ⟨[], [], [], []⟩ =
      .fatal "unsupported subject alternative name type foo" := rfl

/-- C1 (amended): for every entry whose lowercased type is none of dns,
email, ip, uri, the empty string or auto, Set aborts fatally (panics) with
the unsupported-type message; no recoverable error result exists. -/
theorem setSAN_unrecognized_fatal :
    ∀ (s : SubjectAlternativeName) (c : SetCert),
      asciiToLower s.type ∉
        (["dns", "email", "ip", "uri", "", "auto"] : List String) →
      SubjectAlternativeName.Set s c =
        .fatal ("unsupported subject alternative name type " ++ s.type) := by
  intro s c h
  simp only [List.mem_cons, List.not_mem_nil, or_false, not_or] at h
  obtain ⟨h1, h2, h3, h4, h5, h6⟩ := h
  unfold SubjectAlternativeName.Set
  rw [if_neg h1, if_neg h2, if_neg h3, if_neg h4, if_neg (not_or.mpr ⟨h5, h6⟩)]

/-- Witness for C1 (amended): even the RFC 5280 type x400Address panics in
Set. -/
theorem setSAN_unrecognized_fatal_witness :
    SubjectAlternativeName.Set ⟨"x400Address", "x"⟩ ⟨[], [], [], []⟩ =
      .fatal "unsupported subject alternative name type x400Address" :=
  setSAN_unrecognized_fatal ⟨"x400Address", "x"⟩ ⟨[], [], [], []⟩ (by decide)

/-! ## Claim C10 -/

/-- C10: SAN type dispatch is case-sensitive in the extension encoder but
case-insensitive in Set: an entry whose type differs from dns, email, ip
or uri only by letter case (and does not parse as an OID) makes the
encoder's per-entry step fail with the unsupported-type error, while Set
lowercases the type and applies the entry as the matching known type,
never aborting. -/
theorem san_case_sensitivity :
    ∀ (s : SubjectAlternativeName) (c : SetCert),
      asciiToLower s.type ∈ (["dns", "email", "ip", "uri"] : List String) →
      s.type ≠ asciiToLower s.type →
      parseObjectIdentifier s.type = none →
      encodeSANEntry s = .error ("unsupported SAN type " ++ s.type) ∧
      (asciiToLower s.type = "dns" → SubjectAlternativeName.Set s c =
        .ok { c with dnsNames := c.dnsNames ++ [s.value] }) ∧
      (asciiToLower s.type = "email" → SubjectAlternativeName.Set s c =
        .ok { c with emailAddresses := c.emailAddresses ++ [s.value] }) ∧
      (asciiToLower s.type = "ip" → SubjectAlternativeName.Set s c =
        (match parseIP s.value with
          | some ip => .ok { c with ipAddresses := c.ipAddresses ++ [ip] }
          | none => .ok c)) ∧
      (asciiToLower s.type = "uri" → SubjectAlternativeName.Set s c =
        (match urlParse s.value with
          | some u => .ok { c with uris := c.uris ++ [u] }
          | none => .ok c)) ∧
      (∀ msg, SubjectAlternativeName.Set s c ≠ .fatal msg) := by
  intro s c hmem hne hoid
  have hemail : s.type ≠ "email" := by
    intro hh; exact hne (by rw [hh]; rfl)
  have hdns : s.type ≠ "dns" := by
    intro hh; exact hne (by rw [hh]; rfl)
  have huri : s.type ≠ "uri" := by
    intro hh; exact hne (by rw [hh]; rfl)
  have hip : s.type ≠ "ip" := by
    intro hh; exact hne (by rw [hh]; rfl)
  have hx4 : s.type ≠ "x400Address" := by
    intro hh; rw [hh] at hmem; exact absurd hmem (by decide)
  have hdn : s.type ≠ "dn" := by
    intro hh; rw [hh] at hmem; exact absurd hmem (by decide)
  have hedi : s.type ≠ "ediPartyName" := by
    intro hh; rw [hh] at hmem; exact absurd hmem (by decide)
  have hreg : s.type ≠ "registeredID" := by
    intro hh; rw [hh] at hmem; exact absurd hmem (by decide)
  have hempty : s.type ≠ "" := by
    intro hh; rw [hh] at hmem; exact absurd hmem (by decide)
  refine ⟨?_, ?_, ?_, ?_, ?_, ?_⟩
  · unfold encodeSANEntry
    rw [if_neg hemail, if_neg hdns, if_neg (by push_neg; exact ⟨hx4, hdn, hedi⟩),
      if_neg huri, if_neg hip, if_neg hreg, if_pos hempty, hoid]
  · intro ht
    unfold SubjectAlternativeName.Set
    rw [ht]
    exact rfl
  · intro ht
    unfold SubjectAlternativeName.Set
    rw [ht]
    exact rfl
  · intro ht
    unfold SubjectAlternativeName.Set
    rw [ht]
    exact rfl
  · intro ht
    unfold SubjectAlternativeName.Set
    rw [ht]
    exact rfl
  · intro msg hfatal
    simp only [List.mem_cons, List.not_mem_nil, or_false] at hmem
    unfold SubjectAlternativeName.Set at hfatal
    rcases hmem with ht | ht | ht | ht <;> rw [ht] at hfatal
    · cases hfatal
    · cases hfatal
    · rcases hp : parseIP s.value with _ | ip <;> rw [hp] at hfatal <;> cases hfatal
    · rcases hp : urlParse s.value with _ | u <;> rw [hp] at hfatal <;> cases hfatal

/-- Witness for C10: the entry type DNS (uppercase) errors in the encoder
but appends a DNS name through Set. -/
theorem san_case_sensitivity_witness :
    encodeSANEntry ⟨"DNS", "example.com"⟩ = .error "unsupported SAN type DNS" ∧
    SubjectAlternativeName.Set ⟨"DNS", "example.com"⟩ ⟨[], [], [], []⟩ =
      .ok ⟨["example.com"], [], [], []⟩ := by
  have h := san_case_sensitivity ⟨"DNS", "example.com"⟩ ⟨[], [], [], []⟩
    (by decide) (by decide) (by decide)
  exact ⟨h.1, h.2.1 (by decide)⟩

/-! ## Claim C3 -/

lemma splitSemi_nosemi : ∀ xs : List Char, ';' ∉ xs → splitSemi xs = none := by
  intro xs
  induction xs with
  | nil => intro _; rfl
  | cons c cs ih =>
    intro h
    have hc : c ≠ ';' := fun hh => h (hh ▸ List.mem_cons_self c cs)
    rw [splitSemi, if_neg hc, ih (fun hh => h (List.mem_cons_of_mem c hh))]
    rfl

lemma splitSemi_append : ∀ xs : List Char, ';' ∉ xs → ∀ ys : List Char,
    splitSemi (xs ++ ';' :: ys) = some (xs, ys) := by
  intro xs
  induction xs with
  | nil => intro _ ys; rfl
  | cons c cs ih =>
    intro h ys
    have hc : c ≠ ';' := fun hh => h (hh ▸ List.mem_cons_self c cs)
    rw [List.cons_append, splitSemi, if_neg hc,
      ih (fun hh => h (List.mem_cons_of_mem c hh)) ys]
    rfl

lemma printable_fails_on_semi {l : List Char} (h : ';' ∈ l) :
    l.all printableChar = false := by
  rw [List.all_eq_false]
  exact ⟨';', h, by decide⟩

lemma otherNameDER_encodable {arcs oidc : List Nat}
    (harcs : derOIDContent arcs = some oidc) (inner : List Nat) :
    otherNameDER arcs inner = derTLV 160 (derTLV 6 oidc ++ derTLV 160 inner) := by
  simp only [otherNameDER, harcs]

/-- C3 (counterexample): a value with an unrecognized kind marker does not
encode as a printable string of the whole value: the whole value holds the
semicolon, which Go asn1 PrintableString marshalling rejects, so the
encoder fails instead of emitting an otherName. -/
theorem san_otherName_counterexample :
    encodeSANEntry ⟨"1.2.3.4", "x;y"⟩ =
      .error "could not marshal ASN1 values: asn1: structure error: PrintableString contains invalid character" ∧
    ("x" : String) ∉
      (["int", "oid", "utf8", "ia5", "numeric", "printable"] : List String) :=
  ⟨rfl, by decide⟩

/-- C3 (amended): a SAN entry whose type is a dotted OID outside the fixed
vocabulary reaches the OtherName encoder; for an ASN.1-encodable type OID:
an int payload must parse as a base-10 64-bit integer and wraps a DER
INTEGER, else the invalid-int error; an oid payload must parse as a dotted
OID and wraps a DER OID (with a wrapped marshalling error for
non-encodable arcs), else the invalid-OID error; the four string kinds
wrap the literal payload in the matching ASN.1 string type when it fits
that type's character set and otherwise fail with a wrapped marshalling
error; an absent marker encodes the whole value as a printable string
under the same proviso; an unrecognized marker attempts printable encoding
of the whole value, which necessarily fails on its semicolon; and the
entry 1.2.3.4 with value int;42 emits the otherName with inner DER INTEGER
42 under OID 1.2.3.4. -/
theorem san_otherName_encoding :
    (∀ (ty v : String) (arcs : List Nat), parseObjectIdentifier ty = some arcs →
      ty ∉ (["email", "dns", "x400Address", "dn", "ediPartyName", "uri", "ip",
        "registeredID"] : List String) →
      encodeSANEntry ⟨ty, v⟩ = (encodeOtherName ⟨ty, v⟩ arcs).map some) ∧
    (∀ (ty : String) (arcs oidc : List Nat), derOIDContent arcs = some oidc →
      (∀ p : String, encodeOtherName ⟨ty, "int;" ++ p⟩ arcs =
        (match atoi p with
          | none => .error ("invalid int value for int-typed SAN OtherName " ++ ty)
          | some i => .ok (derTLV 160 (derTLV 6 oidc ++
              derTLV 160 (derTLV 2 (derIntContent i)))))) ∧
      (∀ p : String, encodeOtherName ⟨ty, "oid;" ++ p⟩ arcs =
        (match parseObjectIdentifier p with
          | none => .error ("invalid OID value for OID-typed SAN OtherName " ++ ty)
          | some ov =>
            match derOIDContent ov with
            | none => .error
              "could not marshal ASN1 values: asn1: structure error: invalid object identifier"
            | some oc => .ok (derTLV 160 (derTLV 6 oidc ++
                derTLV 160 (derTLV 6 oc))))) ∧
      (∀ p : String, encodeOtherName ⟨ty, "utf8;" ++ p⟩ arcs =
        .ok (derTLV 160 (derTLV 6 oidc ++ derTLV 160 (derTLV 12 (strBytes p))))) ∧
      (∀ p : String, encodeOtherName ⟨ty, "ia5;" ++ p⟩ arcs =
        (if p.data.all ia5Char = true then
          .ok (derTLV 160 (derTLV 6 oidc ++ derTLV 160 (derTLV 22 (strBytes p))))
        else .error
          "could not marshal ASN1 values: asn1: structure error: IA5String contains invalid character")) ∧
      (∀ p : String, encodeOtherName ⟨ty, "numeric;" ++ p⟩ arcs =
        (if p.data.all numericChar = true then
          .ok (derTLV 160 (derTLV 6 oidc ++ derTLV 160 (derTLV 18 (strBytes p))))
        else .error
          "could not marshal ASN1 values: asn1: structure error: NumericString contains invalid character")) ∧
      (∀ p : String, encodeOtherName ⟨ty, "printable;" ++ p⟩ arcs =
        (if p.data.all printableChar = true then
          .ok (derTLV 160 (derTLV 6 oidc ++ derTLV 160 (derTLV 19 (strBytes p))))
        else .error
          "could not marshal ASN1 values: asn1: structure error: PrintableString contains invalid character")) ∧
      (∀ v : String, ';' ∉ v.data → encodeOtherName ⟨ty, v⟩ arcs =
        (if v.data.all printableChar = true then
          .ok (derTLV 160 (derTLV 6 oidc ++ derTLV 160 (derTLV 19 (strBytes v))))
        else .error
          "could not marshal ASN1 values: asn1: structure error: PrintableString contains invalid character")) ∧
      (∀ k p : String, ';' ∉ k.data →
        k ∉ (["int", "oid", "utf8", "ia5", "numeric", "printable"] : List String) →
        encodeOtherName ⟨ty, k ++ ";" ++ p⟩ arcs = .error
          "could not marshal ASN1 values: asn1: structure error: PrintableString contains invalid character")) ∧
    encodeSANEntry ⟨"1.2.3.4", "int;42"⟩ =
      .ok (some [160, 10, 6, 3, 42, 3, 4, 160, 3, 2, 1, 42]) := by
  refine ⟨?_, ?_, rfl⟩
  · intro ty v arcs hp hvocab
    simp only [List.mem_cons, List.not_mem_nil, or_false, not_or] at hvocab
    obtain ⟨hemail, hdns, hx4, hdn, hedi, huri, hip, hreg⟩ := hvocab
    have hempty : ty ≠ "" := by
      intro hh
      rw [hh] at hp
      have hnone : (none : Option (List Nat)) = some arcs := hp
      cases hnone
    unfold encodeSANEntry
    rw [if_neg hemail, if_neg hdns, if_neg (by push_neg; exact ⟨hx4, hdn, hedi⟩),
      if_neg huri, if_neg hip, if_neg hreg, if_pos hempty, hp]
  · intro ty arcs oidc harcs
    have hone := otherNameDER_encodable harcs
    refine ⟨?_, ?_, ?_, ?_, ?_, ?_, ?_, ?_⟩
    · intro p
      have hsplit : splitSemi (("int;" ++ p : String)).data =
          some (['i', 'n', 't'], p.data) := by
        rw [String.data_append]
        exact splitSemi_append ['i', 'n', 't'] (by decide) p.data
      unfold encodeOtherName
      rw [hsplit]
      show encodeOtherNameKind ⟨ty, "int;" ++ p⟩ arcs "int" p = _
      unfold encodeOtherNameKind
      rw [if_pos rfl]
      simp only [hone]
    · intro p
      have hsplit : splitSemi (("oid;" ++ p : String)).data =
          some (['o', 'i', 'd'], p.data) := by
        rw [String.data_append]
        exact splitSemi_append ['o', 'i', 'd'] (by decide) p.data
      unfold encodeOtherName
      rw [hsplit]
      show encodeOtherNameKind ⟨ty, "oid;" ++ p⟩ arcs "oid" p = _
      unfold encodeOtherNameKind
      rw [if_neg (by decide), if_pos rfl]
      simp only [hone]
    · intro p
      have hsplit : splitSemi (("utf8;" ++ p : String)).data =
          some (['u', 't', 'f', '8'], p.data) := by
        rw [String.data_append]
        exact splitSemi_append ['u', 't', 'f', '8'] (by decide) p.data
      unfold encodeOtherName
      rw [hsplit]
      show encodeOtherNameKind ⟨ty, "utf8;" ++ p⟩ arcs "utf8" p = _
      unfold encodeOtherNameKind
      rw [if_neg (by decide), if_neg (by decide), if_pos (Or.inl rfl),
        show marshalASN1String "utf8" p = .ok (derTLV 12 (strBytes p)) from rfl]
      simp only [hone]
    · intro p
      have hsplit : splitSemi (("ia5;" ++ p : String)).data =
          some (['i', 'a', '5'], p.data) := by
        rw [String.data_append]
        exact splitSemi_append ['i', 'a', '5'] (by decide) p.data
      unfold encodeOtherName
      rw [hsplit]
      show encodeOtherNameKind ⟨ty, "ia5;" ++ p⟩ arcs "ia5" p = _
      unfold encodeOtherNameKind
      rw [if_neg (by decide), if_neg (by decide), if_pos (Or.inr (Or.inl rfl)),
        show marshalASN1String "ia5" p = (if p.data.all ia5Char = true then
          .ok (derTLV 22 (strBytes p)) else .error
          "asn1: structure error: IA5String contains invalid character") from rfl]
      cases hb : p.data.all ia5Char <;> simp only [hb, hone] <;> rfl
    · intro p
      have hsplit : splitSemi (("numeric;" ++ p : String)).data =
          some (['n', 'u', 'm', 'e', 'r', 'i', 'c'], p.data) := by
        rw [String.data_append]
        exact splitSemi_append ['n', 'u', 'm', 'e', 'r', 'i', 'c'] (by decide) p.data
      unfold encodeOtherName
      rw [hsplit]
      show encodeOtherNameKind ⟨ty, "numeric;" ++ p⟩ arcs "numeric" p = _
      unfold encodeOtherNameKind
      rw [if_neg (by decide), if_neg (by decide),
        if_pos (Or.inr (Or.inr (Or.inl rfl))),
        show marshalASN1String "numeric" p = (if p.data.all numericChar = true then
          .ok (derTLV 18 (strBytes p)) else .error
          "asn1: structure error: NumericString contains invalid character") from rfl]
      cases hb : p.data.all numericChar <;> simp only [hb, hone] <;> rfl
    · intro p
      have hsplit : splitSemi (("printable;" ++ p : String)).data =
          some (['p', 'r', 'i', 'n', 't', 'a', 'b', 'l', 'e'], p.data) := by
        rw [String.data_append]
        exact splitSemi_append ['p', 'r', 'i', 'n', 't', 'a', 'b', 'l', 'e']
          (by decide) p.data
      unfold encodeOtherName
      rw [hsplit]
      show encodeOtherNameKind ⟨ty, "printable;" ++ p⟩ arcs "printable" p = _
      unfold encodeOtherNameKind
      rw [if_neg (by decide), if_neg (by decide),
        if_pos (Or.inr (Or.inr (Or.inr rfl))),
        show marshalASN1String "printable" p = (if p.data.all printableChar = true then
          .ok (derTLV 19 (strBytes p)) else .error
          "asn1: structure error: PrintableString contains invalid character") from rfl]
      cases hb : p.data.all printableChar <;> simp only [hb, hone] <;> rfl
    · intro v hsemi
      unfold encodeOtherName
      rw [splitSemi_nosemi v.data hsemi]
      show encodeOtherNameKind ⟨ty, v⟩ arcs "printable" v = _
      unfold encodeOtherNameKind
      rw [if_neg (by decide), if_neg (by decide),
        if_pos (Or.inr (Or.inr (Or.inr rfl))),
        show marshalASN1String "printable" v = (if v.data.all printableChar = true then
          .ok (derTLV 19 (strBytes v)) else .error
          "asn1: structure error: PrintableString contains invalid character") from rfl]
      cases hb : v.data.all printableChar <;> simp only [hb, hone] <;> rfl
    · intro k p hk hkvocab
      simp only [List.mem_cons, List.not_mem_nil, or_false, not_or] at hkvocab
      obtain ⟨hkint, hkoid, hkutf8, hkia5, hknum, hkprint⟩ := hkvocab
      have hdata : ((k ++ ";" ++ p : String)).data = k.data ++ ';' :: p.data := by
        simp [String.data_append]
      have hsplit : splitSemi ((k ++ ";" ++ p : String)).data =
          some (k.data, p.data) := by
        rw [hdata]
        exact splitSemi_append k.data hk p.data
      have hsemimem : ';' ∈ ((k ++ ";" ++ p : String)).data := by
        rw [hdata]
        exact List.mem_append_right _ (List.mem_cons_self _ _)
      have hfail : marshalASN1String "printable" (k ++ ";" ++ p) = .error
          "asn1: structure error: PrintableString contains invalid character" := by
        unfold marshalASN1String
        rw [if_neg (by decide), if_neg (by decide), if_neg (by decide),
          printable_fails_on_semi hsemimem]
        rfl
      unfold encodeOtherName
      rw [hsplit]
      show encodeOtherNameKind ⟨ty, k ++ ";" ++ p⟩ arcs k p = _
      unfold encodeOtherNameKind
      rw [if_neg hkint, if_neg hkoid,
        if_neg (by push_neg; exact ⟨hkutf8, hkia5, hknum, hkprint⟩), hfail]
      rfl

/-- Witness for C3 (amended), instantiating both general parts at the OID
1.2.3.4 and concrete payloads of each kind. -/
theorem san_otherName_encoding_witness :
    encodeSANEntry ⟨"1.2.3.4", "int;42"⟩ =
      (encodeOtherName ⟨"1.2.3.4", "int;42"⟩ [1, 2, 3, 4]).map some ∧
    encodeOtherName ⟨"1.2.3.4", "int;42"⟩ [1, 2, 3, 4] =
      .ok [160, 10, 6, 3, 42, 3, 4, 160, 3, 2, 1, 42] ∧
    encodeOtherName ⟨"1.2.3.4", "int;xy"⟩ [1, 2, 3, 4] =
      .error "invalid int value for int-typed SAN OtherName 1.2.3.4" ∧
    encodeOtherName ⟨"1.2.3.4", "utf8;hi"⟩ [1, 2, 3, 4] =
      .ok [160, 11, 6, 3, 42, 3, 4, 160, 4, 12, 2, 104, 105] ∧
    encodeOtherName ⟨"1.2.3.4", "x;y"⟩ [1, 2, 3, 4] = .error
      "could not marshal ASN1 values: asn1: structure error: PrintableString contains invalid character" := by
  have h := san_otherName_encoding
  have h1 := h.1 "1.2.3.4" "int;42" [1, 2, 3, 4] (by decide) (by decide)
  have h2 := h.2.1 "1.2.3.4" [1, 2, 3, 4] [42, 3, 4] (by decide)
  have hi42 := h2.1 "42"
  rw [show ("int;" ++ "42" : String) = "int;42" by decide] at hi42
  have hixy := h2.1 "xy"
  rw [show ("int;" ++ "xy" : String) = "int;xy" by decide] at hixy
  have hutf := h2.2.2.1 "hi"
  rw [show ("utf8;" ++ "hi" : String) = "utf8;hi" by decide] at hutf
  have hunk := h2.2.2.2.2.2.2.2 "x" "y" (by decide) (by decide)
  rw [show ("x" ++ ";" ++ "y" : String) = "x;y" by decide] at hunk
  refine ⟨h1, ?_, ?_, ?_, hunk⟩
  · rw [hi42]
    rfl
  · rw [hixy]
    rfl
  · rw [hutf]
    rfl
